import Mathlib

/-!
Verification of the fabrica daily trend-following engine.

Shallow embedding of the repository code:
* `src/.streamlit/core/portfolio.py` — compute_weights, update_kill_switch, diff_states
* `src/core/strategy.py`             — signal_on_off and the per-asset decision
* `src/core/storage.py`              — load_state / save_state over a small disk model
* `src/jobs/run_daily.py`            — the run orchestration core

Python floats are modelled as exact rationals, dicts as association lists
in insertion order, and JSON files as a sum type (parseable dict / parseable
non-dict / unparseable).
-/

namespace Fabrica

/-! ## Portfolio module (src/.streamlit/core/portfolio.py) -/

/-- Count of tickers whose signal equals 1: `on = [t for t, s in signals.items() if s == 1]`
followed by `len(on)`. -/
def onCount (signals : List (String × ℤ)) : ℕ :=
  (signals.filter (fun p => p.2 == 1)).length

/-- Embedding of `compute_weights` (portfolio.py lines 3-8): if no signal is 1,
every ticker maps to 0.0; otherwise tickers with signal 1 map to `1/len(on)`
and all others to 0.0. -/
def compute_weights (signals : List (String × ℤ)) : List (String × ℚ) :=
  if onCount signals = 0 then
    signals.map (fun p => (p.1, (0 : ℚ)))
  else
    signals.map (fun p => (p.1, if p.2 == 1 then (1 : ℚ) / (onCount signals : ℚ) else 0))

/-- Embedding of `update_kill_switch` (portfolio.py lines 10-18): returns the
triple `(kill, peak, dd)` with `peak = max(peak_equity, equity)`,
`dd = 0 if peak == 0 else (peak - equity)/peak`, `kill = dd >= max_dd`. -/
def update_kill_switch (equity peak_equity max_dd : ℚ) : Bool × ℚ × ℚ :=
  let peak := max peak_equity equity
  let dd : ℚ := if peak = 0 then 0 else (peak - equity) / peak
  (decide (dd ≥ max_dd), peak, dd)

/-- A persisted position entry `{"state": 0/1, "weight": float}`. -/
structure Position where
  state : ℤ
  weight : ℚ
deriving DecidableEq, Repr

/-- Order actions emitted by `diff_states`. -/
inductive Action where
  | ENTER
  | EXIT
deriving DecidableEq, Repr

/-- Previous state of a ticker: `int(prev_positions.get(ticker, {}).get("state", 0))`. -/
def prevStateOf (prev_positions : List (String × Position)) (t : String) : ℤ :=
  ((prev_positions.lookup t).map Position.state).getD 0

/-- Embedding of `diff_states` (portfolio.py lines 20-35): for each ticker of
`new_weights` in order, emit ENTER on previous state 0 with positive weight,
EXIT on previous state 1 with non-positive weight, nothing otherwise. -/
def diff_states (prev_positions : List (String × Position))
    (new_weights : List (String × ℚ)) : List (String × Action) :=
  new_weights.filterMap (fun p =>
    let prev_state := prevStateOf prev_positions p.1
    let new_state : ℤ := if 0 < p.2 then 1 else 0
    if prev_state = 0 ∧ new_state = 1 then some (p.1, Action.ENTER)
    else if prev_state = 1 ∧ new_state = 0 then some (p.1, Action.EXIT)
    else none)

/-! ### Helper lemmas for the portfolio theorems -/

lemma sum_map_ite_weight (l : List (String × ℤ)) (q : ℚ) :
    ((l.map (fun p => (p.1, if p.2 == 1 then q else (0 : ℚ)))).map Prod.snd).sum
      = ((l.filter (fun p => p.2 == 1)).length : ℚ) * q := by
  induction l with
  | nil => simp
  | cons p l ih =>
    by_cases h : p.2 = 1
    · simp only [List.map_cons, List.sum_cons, List.filter_cons, h, beq_self_eq_true,
        if_true, ite_true, List.length_cons, Nat.cast_succ, Prod.snd] at ih ⊢
      rw [ih]; ring
    · have hb : (p.2 == 1) = false := beq_eq_false_iff_ne.mpr h
      simp only [List.map_cons, List.sum_cons, List.filter_cons, hb, if_false,
        Bool.false_eq_true, ite_false, Prod.snd] at ih ⊢
      rw [ih]; ring

lemma keys_nodup_value_eq {nw : List (String × ℚ)} (hnd : (nw.map Prod.fst).Nodup)
    {t : String} {q₁ q₂ : ℚ} (h₁ : (t, q₁) ∈ nw) (h₂ : (t, q₂) ∈ nw) : q₁ = q₂ := by
  induction nw with
  | nil => cases h₁
  | cons p l ih =>
    simp only [List.map_cons, List.nodup_cons] at hnd
    rcases List.mem_cons.mp h₁ with h₁ | h₁ <;> rcases List.mem_cons.mp h₂ with h₂ | h₂
    · rw [← h₁] at h₂; exact (Prod.mk.injEq _ _ _ _ ▸ h₂.symm).2
    · exact absurd (List.mem_map_of_mem Prod.fst h₂) (by simp [← h₁] at hnd ⊢; exact hnd.1)
    · exact absurd (List.mem_map_of_mem Prod.fst h₁) (by simp [← h₂] at hnd ⊢; exact hnd.1)
    · exact ih hnd.2 h₁ h₂

lemma newState_eq_one (q : ℚ) : ((if 0 < q then (1 : ℤ) else 0) = 1) ↔ 0 < q := by
  split_ifs with h <;> simp [h]

lemma newState_eq_zero (q : ℚ) : ((if 0 < q then (1 : ℤ) else 0) = 0) ↔ ¬ 0 < q := by
  split_ifs with h <;> simp [h]

lemma mem_diff_states (prev : List (String × Position)) (nw : List (String × ℚ))
    (t : String) (a : Action) :
    (t, a) ∈ diff_states prev nw ↔
      ∃ q, (t, q) ∈ nw ∧
        ((a = Action.ENTER ∧ prevStateOf prev t = 0 ∧ 0 < q)
         ∨ (a = Action.EXIT ∧ prevStateOf prev t = 1 ∧ ¬ 0 < q)) := by
  simp only [diff_states, List.mem_filterMap]
  constructor
  · rintro ⟨p, hp, hf⟩
    by_cases hA : prevStateOf prev p.1 = 0 ∧ (if 0 < p.2 then (1 : ℤ) else 0) = 1
    · rw [if_pos hA, Option.some_inj, Prod.mk.injEq] at hf
      obtain ⟨hft, hfa⟩ := hf
      exact ⟨p.2, by rw [← hft]; exact hp,
        Or.inl ⟨hfa.symm, hft ▸ hA.1, (newState_eq_one p.2).mp hA.2⟩⟩
    · rw [if_neg hA] at hf
      by_cases hB : prevStateOf prev p.1 = 1 ∧ (if 0 < p.2 then (1 : ℤ) else 0) = 0
      · rw [if_pos hB, Option.some_inj, Prod.mk.injEq] at hf
        obtain ⟨hft, hfa⟩ := hf
        exact ⟨p.2, by rw [← hft]; exact hp,
          Or.inr ⟨hfa.symm, hft ▸ hB.1, (newState_eq_zero p.2).mp hB.2⟩⟩
      · rw [if_neg hB] at hf
        cases hf
  · rintro ⟨q, hq, ⟨ha, h0, hpos⟩ | ⟨ha, h1, hneg⟩⟩
    · refine ⟨(t, q), hq, ?_⟩
      rw [if_pos ⟨h0, (newState_eq_one q).mpr hpos⟩, ha]
    · refine ⟨(t, q), hq, ?_⟩
      rw [if_neg (fun hc => by rw [h1] at hc; exact one_ne_zero hc.1),
        if_pos ⟨h1, (newState_eq_zero q).mpr hneg⟩, ha]

/-- C6: for every weight map with unique tickers and nonnegative weights (the
shape every weight map in the system has), `diff_states` emits ENTER for a
ticker exactly when its previous state (0 when absent from the previous
positions) is 0 and its new weight is positive, EXIT exactly when its previous
state is 1 and its new weight is 0, and emits nothing for tickers absent from
the new weight map. -/
theorem diff_states_spec (prev : List (String × Position)) (nw : List (String × ℚ))
    (hnd : (nw.map Prod.fst).Nodup) (hw : ∀ p ∈ nw, 0 ≤ p.2) :
    (∀ t q, (t, q) ∈ nw →
      (((t, Action.ENTER) ∈ diff_states prev nw) ↔ (prevStateOf prev t = 0 ∧ 0 < q))
      ∧ (((t, Action.EXIT) ∈ diff_states prev nw) ↔ (prevStateOf prev t = 1 ∧ q = 0)))
    ∧ (∀ t, t ∉ nw.map Prod.fst → ∀ a, (t, a) ∉ diff_states prev nw) := by
  constructor
  · intro t q hm
    constructor
    · rw [mem_diff_states]
      constructor
      · rintro ⟨q2, hq2, ⟨_, h0, hpos⟩ | ⟨hab, _, _⟩⟩
        · exact ⟨h0, keys_nodup_value_eq hnd hm hq2 ▸ hpos⟩
        · cases hab
      · rintro ⟨h0, hpos⟩
        exact ⟨q, hm, Or.inl ⟨rfl, h0, hpos⟩⟩
    · rw [mem_diff_states]
      constructor
      · rintro ⟨q2, hq2, ⟨hab, _, _⟩ | ⟨_, h1, hneg⟩⟩
        · cases hab
        · have hqe : q = q2 := keys_nodup_value_eq hnd hm hq2
          exact ⟨h1, le_antisymm (hqe ▸ not_lt.mp hneg) (hw (t, q) hm)⟩
      · rintro ⟨h1, hq0⟩
        exact ⟨q, hm, Or.inr ⟨rfl, h1, by rw [hq0]; exact lt_irrefl 0⟩⟩
  · intro t ht a hmem
    rcases (mem_diff_states prev nw t a).mp hmem with ⟨q, hq, _⟩
    exact ht (List.mem_map_of_mem Prod.fst hq)

/-- Witness for `diff_states_spec` at scenario D of the spec:
previous positions `{A: state 1, weight 1}` and new weights `{A: 0, B: 1}`,
discharging the nodup-keys and nonnegative-weights hypotheses at ticker B. -/
theorem diff_states_spec_witness :
    ((("B" : String), Action.ENTER)
        ∈ diff_states [(("A" : String), ⟨1, 1⟩)] [(("A" : String), (0 : ℚ)), ("B", 1)]
      ↔ (prevStateOf [(("A" : String), ⟨1, 1⟩)] ("B") = 0 ∧ (0 : ℚ) < 1))
    ∧ ((("B" : String), Action.EXIT)
        ∈ diff_states [(("A" : String), ⟨1, 1⟩)] [(("A" : String), (0 : ℚ)), ("B", 1)]
      ↔ (prevStateOf [(("A" : String), ⟨1, 1⟩)] ("B") = 1 ∧ (1 : ℚ) = 0)) :=
  (diff_states_spec [(("A" : String), ⟨1, 1⟩)] [(("A" : String), (0 : ℚ)), ("B", 1)]
    (by decide) (by norm_num)).1 ("B") 1 (by norm_num)

/-- C4: with `on` the number of input signals equal to 1, `compute_weights`
maps every ticker to 0.0 when `on = 0`; otherwise tickers with signal 1 map to
`1/on`, tickers with signal 0 map to 0.0, the weights sum to exactly 1, and
the example `{A:1, B:1, C:0}` yields `{A:0.5, B:0.5, C:0.0}`. -/
theorem compute_weights_spec (signals : List (String × ℤ)) :
    (onCount signals = 0 → compute_weights signals = signals.map (fun p => (p.1, (0 : ℚ))))
    ∧ (0 < onCount signals →
        (∀ p ∈ signals, p.2 = 1 →
          (p.1, (1 : ℚ) / (onCount signals : ℚ)) ∈ compute_weights signals)
        ∧ (∀ p ∈ signals, p.2 = 0 → (p.1, (0 : ℚ)) ∈ compute_weights signals)
        ∧ ((compute_weights signals).map Prod.snd).sum = 1)
    ∧ compute_weights [(("A" : String), (1 : ℤ)), ("B", 1), ("C", 0)]
        = [("A", (1 : ℚ)/2), ("B", 1/2), ("C", 0)] := by
  refine ⟨fun h => by simp [compute_weights, h], fun h => ?_,
    by norm_num [compute_weights, onCount]⟩
  have hne : onCount signals ≠ 0 := Nat.pos_iff_ne_zero.mp h
  refine ⟨fun p hp h1 => ?_, fun p hp h0 => ?_, ?_⟩
  · simp only [compute_weights, hne, if_false, ite_false]
    exact List.mem_map.mpr ⟨p, hp, by simp [h1]⟩
  · simp only [compute_weights, hne, if_false, ite_false]
    refine List.mem_map.mpr ⟨p, hp, ?_⟩
    have : (p.2 == 1) = false := beq_eq_false_iff_ne.mpr (by omega)
    simp [this]
  · simp only [compute_weights, hne, if_false, ite_false]
    rw [sum_map_ite_weight]
    have : ((signals.filter (fun p => p.2 == 1)).length : ℚ) = (onCount signals : ℚ) := by
      simp [onCount]
    rw [this, mul_one_div, div_self (by exact_mod_cast hne)]

/-- Witness for `compute_weights_spec` at the concrete signal map
`{A:1, B:1, C:0}`, discharging the `0 < on` hypothesis. -/
theorem compute_weights_spec_witness :
    ((compute_weights [(("A" : String), (1 : ℤ)), ("B", 1), ("C", 0)]).map Prod.snd).sum = 1 :=
  ((compute_weights_spec [(("A" : String), (1 : ℤ)), ("B", 1), ("C", 0)]).2.1
    (by decide)).2.2

/-- C5: `update_kill_switch` returns `new_peak = max(peak_equity, equity)`,
`drawdown = 0` when the new peak is 0 and `(new_peak - equity)/new_peak`
otherwise, triggers exactly when `drawdown ≥ max_drawdown`, keeps the drawdown
in `[0, 1]` whenever `equity ≥ 0`, and on `(80000, 100000, 0.20)` returns
`(kill = true, new_peak = 100000, drawdown = 0.20)`. -/
theorem update_kill_switch_spec (equity peak_equity max_dd : ℚ) :
    (update_kill_switch equity peak_equity max_dd).2.1 = max peak_equity equity
    ∧ (update_kill_switch equity peak_equity max_dd).2.2
        = (if max peak_equity equity = 0 then 0
           else (max peak_equity equity - equity) / max peak_equity equity)
    ∧ ((update_kill_switch equity peak_equity max_dd).1 = true
        ↔ (update_kill_switch equity peak_equity max_dd).2.2 ≥ max_dd)
    ∧ (0 ≤ equity →
        0 ≤ (update_kill_switch equity peak_equity max_dd).2.2
        ∧ (update_kill_switch equity peak_equity max_dd).2.2 ≤ 1)
    ∧ update_kill_switch 80000 100000 (1/5) = (true, 100000, 1/5) := by
  refine ⟨rfl, rfl, ?_, fun he => ?_,
    by norm_num [update_kill_switch, max_def, Prod.ext_iff]⟩
  · simp only [update_kill_switch]
    exact decide_eq_true_iff
  · simp only [update_kill_switch]
    have hpe : equity ≤ max peak_equity equity := le_max_right _ _
    by_cases hz : max peak_equity equity = 0
    · simp [hz]
    · have hp0 : (0 : ℚ) ≤ max peak_equity equity := le_trans he hpe
      have hppos : (0 : ℚ) < max peak_equity equity := lt_of_le_of_ne hp0 (Ne.symm hz)
      simp only [hz, if_false, ite_false]
      constructor
      · exact div_nonneg (sub_nonneg.mpr hpe) hp0
      · rw [div_le_one hppos]
        exact sub_le_self _ he

/-- Witness for `update_kill_switch_spec` at `equity = 80000`, discharging the
`0 ≤ equity` hypothesis of the drawdown-bound conjunct. -/
theorem update_kill_switch_spec_witness :
    0 ≤ (update_kill_switch 80000 100000 (1/5)).2.2
    ∧ (update_kill_switch 80000 100000 (1/5)).2.2 ≤ 1 :=
  (update_kill_switch_spec 80000 100000 (1/5)).2.2.2.1 (by norm_num)

/-! ## Strategy module (src/core/strategy.py)

A price frame is modelled by its Close column after index normalization:
a list of optional rationals, `none` standing for a non-numeric close that
`pd.to_numeric(..., errors="coerce")` turned into NaN. -/

/-- Moving average at row `i` under pandas semantics of
`close.rolling(window=w, min_periods=w).mean()` (strategy.py line 93): defined
exactly when the window of the `w` rows ending at `i` exists and all of its
`w` closes are numeric; its value is then the mean of those closes. -/
def smaAt (closes : List (Option ℚ)) (w : ℕ) (i : ℕ) : Option ℚ :=
  if w ≤ i + 1 ∧ i < closes.length then
    let win := (closes.drop (i + 1 - w)).take w
    let vals := win.filterMap id
    if vals.length = w then some (vals.sum / (w : ℚ)) else none
  else none

/-- Signal at row `i` (strategy.py line 101): `(close > sma)` where any
comparison involving NaN is false, cast to int — so 1 exactly when both close
and average exist and close is strictly above the average. -/
def signalAt (closes : List (Option ℚ)) (w : ℕ) (i : ℕ) : ℤ :=
  match closes.getD i none, smaAt closes w i with
  | some c, some s => if s < c then 1 else 0
  | _, _ => 0

/-- Embedding of `signal_on_off` (strategy.py lines 68-104): one output row per
input row carrying Close, SMA and Signal; empty input yields the empty frame. -/
def signal_on_off (closes : List (Option ℚ)) (w : ℕ) :
    List (Option ℚ × Option ℚ × ℤ) :=
  (List.range closes.length).map
    (fun i => (closes.getD i none, smaAt closes w i, signalAt closes w i))

/-- Per-asset decision step of the daily runner (run_daily.py lines 161-177):
skip the ticker when the frame or signal frame is empty, otherwise read the
Signal of the last row. -/
def assetSignal (closes : List (Option ℚ)) (w : ℕ) : Option ℤ :=
  ((signal_on_off closes w).getLast?).map (fun r => r.2.2)

lemma getLast?_append_singleton {β : Type} (l : List β) (a : β) :
    (l ++ [a]).getLast? = some a :=
  List.getLast?_concat l

lemma assetSignal_of_ne_nil (closes : List (Option ℚ)) (w : ℕ) (h : closes ≠ []) :
    assetSignal closes w = some (signalAt closes w (closes.length - 1)) := by
  obtain ⟨m, hm⟩ : ∃ m, closes.length = m + 1 := by
    cases hc : closes.length with
    | zero => exact absurd (List.length_eq_zero.mp hc) h
    | succ m => exact ⟨m, rfl⟩
  unfold assetSignal signal_on_off
  rw [hm, List.range_succ, List.map_append, List.map_singleton,
    getLast?_append_singleton]
  simp [hm]

lemma smaAt_none_of_few (closes : List (Option ℚ)) (w i : ℕ)
    (hcount : (closes.filterMap id).length < w) : smaAt closes w i = none := by
  by_cases hc : w ≤ i + 1 ∧ i < closes.length
  · rw [smaAt, if_pos hc]
    have hsub : ((closes.drop (i + 1 - w)).take w).Sublist closes :=
      (List.take_sublist _ _).trans (List.drop_sublist _ _)
    have hlen : (((closes.drop (i + 1 - w)).take w).filterMap id).length
        ≤ (closes.filterMap id).length := (hsub.filterMap id).length_le
    exact if_neg (by omega)
  · rw [smaAt, if_neg hc]

lemma signalAt_zero_of_few (closes : List (Option ℚ)) (w i : ℕ)
    (hcount : (closes.filterMap id).length < w) : signalAt closes w i = 0 := by
  unfold signalAt
  rw [smaAt_none_of_few _ _ _ hcount]
  cases closes.getD i none <;> rfl

/-- C7 (amended): the per-asset signal step yields no usable signal exactly
when the normalized series is empty; a nonempty series with fewer than
`window` numeric closes is not excluded — every moving average is undefined,
so the final decision row gets signal 0 and the ticker keeps a 0 decision. -/
theorem signal_unavailable_spec (closes : List (Option ℚ)) (w : ℕ) :
    (assetSignal closes w = none ↔ closes = [])
    ∧ (closes ≠ [] → (closes.filterMap id).length < w →
        assetSignal closes w = some 0) := by
  constructor
  · constructor
    · intro h
      by_contra hne
      rw [assetSignal_of_ne_nil closes w hne] at h
      cases h
    · intro h
      rw [h]
      rfl
  · intro hne hcount
    rw [assetSignal_of_ne_nil closes w hne, signalAt_zero_of_few _ _ _ hcount]

/-- Witness for `signal_unavailable_spec`: a series with one numeric close and
window 3 is nonempty, has fewer than 3 valid closes, and still produces the
decision signal 0. -/
theorem signal_unavailable_spec_witness :
    assetSignal [some 7, none] 3 = some 0 :=
  (signal_unavailable_spec [some 7, none] 3).2 (by decide) (by decide)

/-! ## Storage module (src/core/storage.py) -/

/-- Typed portfolio state. `stateId = none` models a state dict without a
`state_id` key (DEFAULT_STATE carries none). -/
structure PortfolioState where
  stateId : Option String
  equity : ℚ
  peakEquity : ℚ
  lastDrawdown : ℚ
  killSwitch : Bool
  positions : List (String × Position)
  lastPrices : List (String × Option ℚ)
  lastRun : Option String
deriving DecidableEq, Repr

/-- DEFAULT_STATE (storage.py lines 10-18). -/
def defaultState : PortfolioState :=
  { stateId := none, equity := 100000, peakEquity := 100000, lastDrawdown := 0,
    killSwitch := false, positions := [], lastPrices := [], lastRun := none }

/-- A parsed JSON state dict: every field optional, `none` meaning the key is
absent from the dict. -/
structure StateJson where
  stateId : Option String := none
  equity : Option ℚ := none
  peakEquity : Option ℚ := none
  lastDrawdown : Option ℚ := none
  killSwitch : Option Bool := none
  positions : Option (List (String × Position)) := none
  lastPrices : Option (List (String × Option ℚ)) := none
  lastRun : Option (Option String) := none
deriving DecidableEq, Repr

/-- Defensive merge `merged = DEFAULT_STATE.copy(); merged.update(data)`
(storage.py lines 47-49 and 58-60): keys present in the parsed dict win,
missing keys fall back to the defaults; a `state_id` key survives the merge
even though DEFAULT_STATE lacks it. -/
def mergeDefaults (j : StateJson) : PortfolioState :=
  { stateId := j.stateId,
    equity := j.equity.getD defaultState.equity,
    peakEquity := j.peakEquity.getD defaultState.peakEquity,
    lastDrawdown := j.lastDrawdown.getD defaultState.lastDrawdown,
    killSwitch := j.killSwitch.getD defaultState.killSwitch,
    positions := j.positions.getD defaultState.positions,
    lastPrices := j.lastPrices.getD defaultState.lastPrices,
    lastRun := j.lastRun.getD defaultState.lastRun }

/-- Payload written by `save_state`:
`payload = DEFAULT_STATE.copy(); payload.update(state)` (storage.py lines
82-84) applied to a full portfolio state, so every default key is present. -/
def savePayload (s : PortfolioState) : StateJson :=
  { stateId := s.stateId, equity := some s.equity, peakEquity := some s.peakEquity,
    lastDrawdown := some s.lastDrawdown, killSwitch := some s.killSwitch,
    positions := some s.positions, lastPrices := some s.lastPrices,
    lastRun := some s.lastRun }

/-- Content of a state file on disk: parseable dict, parseable non-dict, or
unparseable (truncated or corrupt) JSON. -/
inductive FileData where
  | good (j : StateJson)
  | nondict
  | corrupt
deriving DecidableEq, Repr

/-- The three paths touched by the store — `state.json`, `state.json.bak` and
`state.json.tmp`; `none` means the file does not exist. -/
structure Disk where
  live : Option FileData
  bak : Option FileData
  tmp : Option FileData
deriving DecidableEq, Repr

/-- Embedding of `load_state` (storage.py lines 32-66): missing live file
gives defaults; a parseable live dict is merged over the defaults; a
parseable non-dict gives pure defaults; an unparseable live file falls back
to the backup, and a missing or unparseable backup gives defaults. -/
def load_state (d : Disk) : PortfolioState :=
  match d.live with
  | none => defaultState
  | some (FileData.good j) => mergeDefaults j
  | some FileData.nondict => defaultState
  | some FileData.corrupt =>
    match d.bak with
    | some (FileData.good j) => mergeDefaults j
    | _ => defaultState

/-- Final disk after a completed `save_state` (storage.py lines 69-100):
write the payload to tmp with flush and fsync, rename live to the backup path
when live exists, then atomically replace live with tmp. -/
def save_state (d : Disk) (s : PortfolioState) : Disk :=
  let d2 : Disk := { d with tmp := some (FileData.good (savePayload s)) }
  let d3 : Disk := if d2.live.isSome then { d2 with bak := d2.live, live := none } else d2
  { d3 with live := some (FileData.good (savePayload s)), tmp := none }

/-- Disk images reachable if a crash interrupts `save_state`: before any
write, mid tmp-write (tmp truncated), after the durable tmp write, after the
atomic backup rename, and after the final atomic replace. The two renames are
`os.replace`, hence atomic; only the tmp write can leave a truncated file. -/
def save_state_trace (d : Disk) (s : PortfolioState) : List Disk :=
  let d1 : Disk := { d with tmp := some FileData.corrupt }
  let d2 : Disk := { d with tmp := some (FileData.good (savePayload s)) }
  let d3 : Disk := if d2.live.isSome then { d2 with bak := d2.live, live := none } else d2
  [d, d1, d2, d3, save_state d s]

/-- C3: starting from a parseable live state file, a completed `save_state`
leaves the serialized payload as the live file, and at every crash point of
the write sequence the live file is either the new payload, the previous
parseable live file, or absent with the previous live file intact at the
backup path — never a truncated live file. -/
theorem save_state_crash_safe (d : Disk) (s : PortfolioState) (j0 : StateJson)
    (h : d.live = some (FileData.good j0)) :
    (save_state d s).live = some (FileData.good (savePayload s))
    ∧ ∀ e ∈ save_state_trace d s,
        e.live = some (FileData.good (savePayload s))
        ∨ e.live = some (FileData.good j0)
        ∨ (e.live = none ∧ e.bak = some (FileData.good j0)) := by
  refine ⟨rfl, fun e he => ?_⟩
  simp only [save_state_trace, save_state, List.mem_cons, List.not_mem_nil,
    or_false] at he
  rcases he with rfl | rfl | rfl | rfl | rfl
  · exact Or.inr (Or.inl h)
  · exact Or.inr (Or.inl h)
  · exact Or.inr (Or.inl h)
  · right; right
    constructor <;> simp [h]
  · left
    simp [h]

/-- Witness for `save_state_crash_safe`: saving the default state over a disk
whose live file holds the empty parseable dict. -/
theorem save_state_crash_safe_witness :
    (save_state ⟨some (FileData.good {}), none, none⟩ defaultState).live
      = some (FileData.good (savePayload defaultState)) :=
  (save_state_crash_safe ⟨some (FileData.good {}), none, none⟩ defaultState {} rfl).1

/-- C9: `load_state` never fails — a missing live file yields the default
state, an unparseable live file falls back to a parseable backup, and when
the backup is missing or also unparseable the default state is returned. -/
theorem load_state_resilient (d : Disk) (j : StateJson) :
    (d.live = none → load_state d = defaultState)
    ∧ (d.live = some FileData.corrupt → d.bak = some (FileData.good j) →
        load_state d = mergeDefaults j)
    ∧ (d.live = some FileData.corrupt →
        (d.bak = none ∨ d.bak = some FileData.corrupt) →
        load_state d = defaultState) := by
  refine ⟨fun h => by simp [load_state, h],
    fun h hb => by simp [load_state, h, hb], fun h hb => ?_⟩
  rcases hb with hb | hb <;> simp [load_state, h, hb]

/-- Witness for `load_state_resilient`: a corrupt live file with a parseable
empty-dict backup loads as the merge of that backup over the defaults. -/
theorem load_state_resilient_witness :
    load_state ⟨some FileData.corrupt, some (FileData.good {}), none⟩
      = mergeDefaults {} :=
  (load_state_resilient ⟨some FileData.corrupt, some (FileData.good {}), none⟩ {}).2.1
    rfl rfl

/-- C10: round-trip persistence — `load_state` applied right after
`save_state s` returns exactly `s`, for every portfolio state and starting
disk. -/
theorem save_load_roundtrip (d : Disk) (s : PortfolioState) :
    load_state (save_state d s) = s := rfl

/-! ## Daily runner (src/jobs/run_daily.py)

The run is parameterized by what the external collaborators return:
`hist` maps each configured ticker to the Close column its provider produced
(empty list = provider returned no data). Configuration is reduced to the
fields the decision core reads. -/

/-- Configuration values read by `run` (run_daily.py lines 130-138). -/
structure Config where
  killEnabled : Bool
  maxDd : ℚ
  initialEquity : ℚ
deriving Repr

/-- Unhandled Python exceptions the run can raise.
`tooManyValuesToUnpack` is the ValueError raised by line 205,
`kill, new_peak = update_kill_switch(...)`, because `update_kill_switch`
returns the 3-tuple `(kill, peak, dd)`. -/
inductive RunError where
  | tooManyValuesToUnpack
deriving DecidableEq, Repr

/-- An audit event as logged by `log_event`; `type` is the literal type tag
string the code passes ("NO_DATA" or "RUN"). Fields absent from an event keep
their defaults. -/
structure Event where
  type : String
  ts : String
  stateId : String := ""
  killSwitch : Option Bool := none
  univTickers : List String := []
  effectiveUniverse : List String := []
  skipped : List String := []
  signals : List (String × ℤ) := []
  weights : List (String × ℚ) := []
  prices : List (String × Option ℚ) := []
  orders : List (String × Action) := []
deriving DecidableEq, Repr

/-- Embedding of `reset_state` (run_daily.py lines 99-119). -/
def reset_state (cfg : Config) (sid : String) : PortfolioState :=
  { stateId := some sid, equity := cfg.initialEquity, peakEquity := cfg.initialEquity,
    lastDrawdown := 0, killSwitch := false, positions := [], lastPrices := [],
    lastRun := none }

/-- Python truthiness of the loaded `state_id` value: absent and empty-string
ids are falsy. -/
def stateIdTruthy : Option String → Bool
  | none => false
  | some s => s != ""

/-- Condition of the identity-mismatch reset (run_daily.py line 144):
`state.get("state_id") and state.get("state_id") != sid`. -/
def stateIdentityReset (st : PortfolioState) (sid : String) : Bool :=
  stateIdTruthy st.stateId && (st.stateId != some sid)

/-- State-shape handling of `run` (run_daily.py lines 144-154): reset on
identity mismatch, otherwise fill missing keys; the typed state already has
every key, so only `setdefault("state_id", sid)` is visible. -/
def applyIdentity (cfg : Config) (st : PortfolioState) (sid : String) : PortfolioState :=
  if stateIdentityReset st sid then reset_state cfg sid
  else { st with stateId := some (st.stateId.getD sid) }

/-- Decision core of `run` (run_daily.py lines 122-251), given the fetched
Close series per configured ticker. Empty fetches are skipped; remaining
tickers contribute the last row of `signal_on_off` as signal and close. With
no usable signal a NO_DATA event is emitted and only `last_run` changes.
Otherwise weights are computed and, when the kill switch is enabled, line 205
unpacks the 3-tuple of `update_kill_switch` into two names and the run dies
with a ValueError before mutating anything; with the check disabled the run
diffs orders, rewrites positions and prices for the effective universe,
recomputes the drawdown and emits a RUN event. -/
def runCore (cfg : Config) (sid : String) (w : ℕ)
    (hist : List (String × List (Option ℚ))) (st0 : PortfolioState)
    (now : String) : Except RunError (PortfolioState × Event) :=
  let st := applyIdentity cfg st0 sid
  let skipped := hist.filterMap (fun p => if p.2.isEmpty then some p.1 else none)
  let signals := hist.filterMap (fun p => (assetSignal p.2 w).map (fun sg => (p.1, sg)))
  let prices := hist.filterMap (fun p =>
    if p.2.isEmpty then none else some (p.1, (p.2.getLast?).join))
  if signals.isEmpty then
    Except.ok ({ st with lastRun := some now },
      { type := "NO_DATA", ts := now, stateId := sid, skipped := skipped,
        univTickers := hist.map Prod.fst })
  else
    let weights := compute_weights signals
    if cfg.killEnabled then
      Except.error RunError.tooManyValuesToUnpack
    else
      let orders := diff_states st.positions weights
      let positions := signals.map (fun p =>
        (p.1, (⟨if 0 < (weights.lookup p.1).getD 0 then 1 else 0,
                (weights.lookup p.1).getD 0⟩ : Position)))
      let lastDd := if 0 < st.peakEquity
        then (st.peakEquity - st.equity) / st.peakEquity else st.lastDrawdown
      let st1 := { st with
        positions := positions, lastPrices := prices,
        lastRun := some now, lastDrawdown := lastDd }
      Except.ok (st1,
        { type := "RUN", ts := now, stateId := sid,
          killSwitch := some st1.killSwitch, univTickers := hist.map Prod.fst,
          effectiveUniverse := signals.map Prod.fst, skipped := skipped,
          signals := signals, weights := weights, prices := prices,
          orders := orders })

/-! ## Theorems about the runner (claims C1, C2, C8) -/

lemma applyIdentity_equity (cfg : Config) (st : PortfolioState) (sid : String) :
    (applyIdentity cfg st sid).equity
      = if stateIdentityReset st sid then cfg.initialEquity else st.equity := by
  unfold applyIdentity reset_state
  split_ifs <;> rfl

/-- C2 (code bug): at the very scenario the claim describes — kill switch
enabled, equity 80000 against peak 100000 and max drawdown 0.20, one ticker
with data — the run dies with the ValueError of line 205 (two names bound to
the 3-tuple returned by `update_kill_switch`) instead of marking
`kill_switch = true`, zeroing the weights and diffing orders. -/
theorem run_kill_enabled_value_error :
    runCore ⟨true, 1/5, 100000⟩ ("S") 126 [(("A" : String), [some 100])]
      ⟨some ("S"), 80000, 100000, 1/5, false, [], [], none⟩ ("T")
      = Except.error RunError.tooManyValuesToUnpack := rfl

/-- C1 (counterexample): a run loaded with `kill_switch = true` (kill check
disabled in config) is not skipped — it emits a RUN event, not RUN_SKIPPED,
computes the nonzero weight 1.0 for ticker A, writes a position with state 1
and weight 1.0, and mutates the state (`last_run` is set) while the flag is
still set. -/
theorem run_kill_flag_ignored_counterexample :
    (runCore ⟨false, 1/5, 100000⟩ ("S") 2 [(("A" : String), [some 0, some 2])]
        ⟨some ("S"), 100000, 100000, 0, true, [], [], none⟩ ("T")).toOption.map
      (fun r => (r.2.type, r.2.weights, r.1.lastRun, r.1.positions, r.1.killSwitch))
      = some ((("RUN" : String), [(("A" : String), (1 : ℚ))], some ("T"),
          [(("A" : String), (⟨1, 1⟩ : Position))], true)) := by
  have hsma : smaAt [some 0, some 2] 2 1 = some 1 := by
    norm_num [smaAt, List.filterMap]
  have hsig1 : signalAt [some 0, some 2] 2 1 = 1 := by
    simp only [signalAt, hsma]
    norm_num
  have h1 : assetSignal [some 0, some 2] 2 = some 1 := by
    rw [assetSignal_of_ne_nil _ _ (by simp)]
    norm_num [hsig1]
  have hsignals : List.filterMap
      (fun p => (assetSignal p.2 2).map (fun sg => (p.1, sg)))
      [(("A" : String), ([some 0, some 2] : List (Option ℚ)))]
      = [(("A" : String), (1 : ℤ))] := by
    simp [h1]
  have hwts : compute_weights [(("A" : String), (1 : ℤ))]
      = [(("A" : String), (1 : ℚ))] := by
    norm_num [compute_weights, onCount]
  simp only [runCore, hsignals, hwts]
  norm_num [applyIdentity, stateIdentityReset, stateIdTruthy, diff_states,
    prevStateOf, List.lookup, Except.toOption]

/-- C1 (amended): the runner has no kill-switch short-circuit — every
completed run, whatever the loaded `kill_switch` value, emits an event typed
NO_DATA or RUN (a RUN_SKIPPED type is never produced) and mutates the state
by setting `last_run` to the run timestamp. -/
theorem run_never_skips (cfg : Config) (sid : String) (w : ℕ)
    (hist : List (String × List (Option ℚ))) (st0 : PortfolioState) (now : String)
    (stOut : PortfolioState) (ev : Event)
    (h : runCore cfg sid w hist st0 now = Except.ok (stOut, ev)) :
    (ev.type = "NO_DATA" ∨ ev.type = "RUN") ∧ stOut.lastRun = some now := by
  simp only [runCore] at h
  split at h
  · rw [Except.ok.injEq, Prod.mk.injEq] at h
    exact ⟨Or.inl (by rw [← h.2]), by rw [← h.1]⟩
  · split at h
    · cases h
    · rw [Except.ok.injEq, Prod.mk.injEq] at h
      exact ⟨Or.inr (by rw [← h.2]), by rw [← h.1]⟩

/-- Witness for `run_never_skips`: a concrete no-data run with the ok result
evaluated, discharging the run-result hypothesis by computation. -/
theorem run_never_skips_witness :
    ((Event.mk ("NO_DATA") ("T") ("S") none [] [] [] [] [] [] []).type = "NO_DATA"
      ∨ (Event.mk ("NO_DATA") ("T") ("S") none [] [] [] [] [] [] []).type = "RUN")
    ∧ (PortfolioState.mk (some ("S")) 80000 100000 0 false [] [] (some ("T"))).lastRun
        = some ("T") :=
  run_never_skips ⟨false, 1/5, 100000⟩ ("S") 5 []
    ⟨some ("S"), 80000, 100000, 0, false, [], [], none⟩ ("T")
    ⟨some ("S"), 80000, 100000, 0, false, [], [], some ("T")⟩
    ⟨("NO_DATA"), ("T"), ("S"), none, [], [], [], [], [], [], []⟩ rfl

/-- C8 (counterexample): at the mark-to-market scenario of the spec —
previous weights {A: 1.0}, previous recorded price A = 100, equity 100000,
a run seeing A close at 110 — the completed run leaves equity at 100000, not
at the claimed 110000: no mark-to-market advance exists in the code. -/
theorem run_no_mark_to_market_counterexample :
    ((runCore ⟨false, 1/5, 100000⟩ ("S") 2 [(("A" : String), [some 100, some 110])]
        ⟨some ("S"), 100000, 100000, 0, false, [(("A" : String), ⟨1, 1⟩)],
          [(("A" : String), some 100)], none⟩ ("T")).toOption.map
      (fun r => r.1.equity) = some ((100000 : ℚ))) ∧ (100000 : ℚ) ≠ 110000 :=
  ⟨rfl, by norm_num⟩

/-- C8 (amended): equity is never advanced by mark-to-market — for every
completed run the persisted equity equals the loaded equity (or the
configured initial equity when the state-identity mismatch reset fired); the
kill-switch check would read the stored equity unchanged. -/
theorem run_equity_unchanged (cfg : Config) (sid : String) (w : ℕ)
    (hist : List (String × List (Option ℚ))) (st0 : PortfolioState) (now : String)
    (stOut : PortfolioState) (ev : Event)
    (h : runCore cfg sid w hist st0 now = Except.ok (stOut, ev)) :
    stOut.equity = if stateIdentityReset st0 sid then cfg.initialEquity else st0.equity := by
  simp only [runCore] at h
  split at h
  · rw [Except.ok.injEq, Prod.mk.injEq] at h
    rw [← h.1]
    exact applyIdentity_equity cfg st0 sid
  · split at h
    · cases h
    · rw [Except.ok.injEq, Prod.mk.injEq] at h
      rw [← h.1]
      exact applyIdentity_equity cfg st0 sid

/-- Witness for `run_equity_unchanged`: a concrete completed run whose ok
result is evaluated, discharging the run-result hypothesis by computation. -/
theorem run_equity_unchanged_witness :
    (PortfolioState.mk (some ("S")) 80000 100000 0 false [] [] (some ("T"))).equity
      = if stateIdentityReset ⟨some ("S"), 80000, 100000, 0, false, [], [], none⟩ ("S")
          then (100000 : ℚ)
          else (⟨some ("S"), 80000, 100000, 0, false, [], [], none⟩ : PortfolioState).equity :=
  run_equity_unchanged ⟨false, 1/5, 100000⟩ ("S") 5 []
    ⟨some ("S"), 80000, 100000, 0, false, [], [], none⟩ ("T")
    ⟨some ("S"), 80000, 100000, 0, false, [], [], some ("T")⟩
    ⟨("NO_DATA"), ("T"), ("S"), none, [], [], [], [], [], [], []⟩ rfl

/-- C7 (counterexample): a series with a single numeric close and window 2 is
not excluded — the per-asset step yields the decision 0 and the runner puts
the ticker into the effective universe with signal 0 instead of skipping it. -/
theorem short_series_included_counterexample :
    (assetSignal [some 5] 2 = some 0)
    ∧ ((runCore ⟨false, 1/5, 100000⟩ ("S") 2 [(("A" : String), [some 5])]
          ⟨some ("S"), 100000, 100000, 0, false, [], [], none⟩ ("T")).toOption.map
        (fun r => (r.2.effectiveUniverse, r.2.signals))
        = some (((["A"] : List String), [(("A" : String), (0 : ℤ))]))) :=
  ⟨rfl, rfl⟩

end Fabrica
